import Mathlib

/-!
Verification development for the Binance Futures copy-trading repository.

The definitions below are a shallow embedding of the Python source:

* `src/trade_monitor.py` — `TradeDatabase` (sqlite `processed_trades` and
  `settings` tables), `BinanceTradeMonitor` (polling path) and
  `BinanceTradeCopier` (order issuance for polled trades);
* `src/background_service.py` — `DatabaseManager.update_positions`,
  `BinanceWebSocketManager` (reconnect handling) and `TradeCopyService`
  (stream path: `handle_new_trade`, `copy_trade`).

Databases are modelled as lists of rows, the exchange as explicit data
(trade history lists, per-call order responses), and each Python function
as a pure Lean function over that state.
-/

/-- Exact rational counterpart of Python `abs(float(...))` as used in
`DatabaseManager.update_positions`. -/
def ratAbs (q : ℚ) : ℚ :=
  if q < 0 then -q else q

/-- A source-account fill as returned by `client.get_account_trades`:
fields `id`, `symbol`, `side`, `qty`, `price`, `time` of the Binance
user-trade record (decimal fields modelled as exact rationals). -/
structure Trade where
  id : Nat
  symbol : String
  side : String
  qty : ℚ
  price : ℚ
  time : Nat
deriving DecidableEq

/-- A row of the `processed_trades` table of `data/trades.db`
(`TradeDatabase.init_database`): `trade_id` is UNIQUE, `copied`
defaults to FALSE. -/
structure ProcessedRow where
  trade_id : Nat
  symbol : String
  side : String
  quantity : ℚ
  price : ℚ
  timestamp : Nat
  copied : Bool
deriving DecidableEq

/-- State of `data/trades.db`: the `processed_trades` table and the
`settings` key/value table. -/
structure TradeDB where
  processed : List ProcessedRow
  settings : List (String × String)
deriving DecidableEq

/-- `TradeDatabase.is_trade_processed`: `SELECT 1 FROM processed_trades
WHERE trade_id = ?` — existence check only, the `copied` column is not
consulted. -/
def is_trade_processed (db : TradeDB) (i : Nat) : Bool :=
  db.processed.any (fun r => r.trade_id == i)

/-- The row inserted for a trade by `TradeDatabase.save_trade`
(`copied` takes its default FALSE). -/
def row_of_trade (t : Trade) : ProcessedRow :=
  { trade_id := t.id, symbol := t.symbol, side := t.side,
    quantity := t.qty, price := t.price, timestamp := t.time,
    copied := false }

/-- `TradeDatabase.save_trade`: `INSERT OR IGNORE` keyed on the UNIQUE
`trade_id`, returning `cursor.rowcount > 0`; any storage exception is
caught and `False` is returned with the table unchanged.  `storageOk`
models whether the store raised. -/
def save_trade (storageOk : Bool) (db : TradeDB) (t : Trade) : TradeDB × Bool :=
  if storageOk = false then (db, false)
  else if is_trade_processed db t.id then (db, false)
  else ({ db with processed := db.processed ++ [row_of_trade t] }, true)

/-- `TradeDatabase.mark_trade_copied`: `UPDATE processed_trades SET
copied = TRUE WHERE trade_id = ?`. -/
def mark_trade_copied (db : TradeDB) (i : Nat) : TradeDB :=
  { db with processed :=
      db.processed.map (fun r => if r.trade_id == i then { r with copied := true } else r) }

/-- `TradeDatabase.get_setting`: `SELECT value FROM settings WHERE key = ?`. -/
def get_setting (db : TradeDB) (k : String) : Option String :=
  (db.settings.find? (fun kv => kv.1 == k)).map (fun kv => kv.2)

/-- `TradeDatabase.set_setting`: `INSERT OR REPLACE INTO settings` on the
primary key `key`. -/
def set_setting (db : TradeDB) (k : String) (v : String) : TradeDB :=
  { db with settings := db.settings.filter (fun kv => kv.1 != k) ++ [(k, v)] }

/-- `BinanceTradeMonitor._get_start_time`: return the saved
`monitor_start_time` if present, otherwise record the current time (epoch
ms) as the start time and return it. -/
def get_start_time (db : TradeDB) (now : Nat) : TradeDB × Nat :=
  match get_setting db "monitor_start_time" with
  | some s => (db, s.toNat?.getD 0)
  | none => (set_setting db "monitor_start_time" (toString now), now)

/-- The venue's reply to `client.get_account_trades(symbol, startTime,
limit=1000)`: the account's fill history at or after `startT`, capped at
1000 records (Binance returns them in ascending time order). -/
def get_account_trades (history : List Trade) (startT : Nat) : List Trade :=
  (history.filter (fun t => startT ≤ t.time)).take 1000

/-- The per-trade loop of `BinanceTradeMonitor.get_new_trades`: for each
fetched trade, if `is_trade_processed` is false the trade is appended to
`new_trades` and then saved; the boolean result of `save_trade` is
ignored.  `saveOk i` models whether the store raised while saving trade
`i`. -/
def filter_new_trades (saveOk : Nat → Bool) (db : TradeDB) : List Trade → TradeDB × List Trade
  | [] => (db, [])
  | t :: ts =>
    if is_trade_processed db t.id then filter_new_trades saveOk db ts
    else
      let db1 := (save_trade (saveOk t.id) db t).1
      let res := filter_new_trades saveOk db1 ts
      (res.1, t :: res.2)

/-- `BinanceTradeMonitor.get_new_trades`: fetch the account trades since
the fixed `start_time` and filter/save the new ones; any exception during
the fetch yields `[]` (modelled by `fetchOk`). -/
def get_new_trades (fetchOk : Bool) (saveOk : Nat → Bool) (history : List Trade)
    (startT : Nat) (db : TradeDB) : TradeDB × List Trade :=
  if fetchOk then filter_new_trades saveOk db (get_account_trades history startT)
  else (db, [])

/-- Outcome of one `new_order` / `futures_create_order` call on the
target account: a fill with an order id, a transport-level exception
(timeout, connection error), or a venue rejection (`BinanceAPIException`)
carrying the rejection message. -/
inductive OrderResult where
  | filled : Nat → OrderResult
  | transportErr : String → OrderResult
  | venueRejected : String → OrderResult
deriving DecidableEq

/-- `BinanceTradeCopier.copy_trade` (polling path): one `new_order` call;
on success `mark_trade_copied` and `True`, on any exception `False`.
Returns the updated db, the list of order calls issued (tagged by the
source trade id) and the boolean result. -/
def copier_copy_trade (resp : Nat → OrderResult) (db : TradeDB) (t : Trade) :
    TradeDB × List Nat × Bool :=
  match resp t.id with
  | OrderResult.filled _ => (mark_trade_copied db t.id, [t.id], true)
  | _ => (db, [t.id], false)

/-- `BinanceTradeCopier.copy_trades`: copy each trade of the list in
order, accumulating the order calls issued. -/
def copier_copy_trades (resp : Nat → OrderResult) (db : TradeDB) (calls : List Nat) :
    List Trade → TradeDB × List Nat
  | [] => (db, calls)
  | t :: ts =>
    let step := copier_copy_trade resp db t
    copier_copy_trades resp step.1 (calls ++ step.2.1) ts

/-- One cycle of `TradeCopierService._monitoring_cycle` restricted to one
symbol: `get_new_trades` followed by `copy_trades` on the returned batch. -/
def poll_cycle (resp : Nat → OrderResult) (saveOk : Nat → Bool) (history : List Trade)
    (startT : Nat) (db : TradeDB) (calls : List Nat) : TradeDB × List Nat :=
  let fetched := get_new_trades true saveOk history startT db
  copier_copy_trades resp fetched.1 calls fetched.2

/-- A sequence of poll cycles against successive exchange snapshots, all
using the monitor's fixed `start_time` (the code computes it once in
`__init__`). -/
def run_cycles (resp : Nat → OrderResult) (saveOk : Nat → Bool) (startT : Nat)
    (db : TradeDB) (calls : List Nat) : List (List Trade) → TradeDB × List Nat
  | [] => (db, calls)
  | h :: hs =>
    let step := poll_cycle resp saveOk h startT db calls
    run_cycles resp saveOk startT step.1 step.2 hs

/-- Outcome dictionary of `TradeCopyService.copy_trade`, plus the number
of `futures_create_order` calls the invocation made. -/
structure CopyOutcome where
  success : Bool
  order_id : Option Nat
  error : Option String
  attempts : Nat
deriving DecidableEq

/-- `TradeCopyService.copy_trade` (stream path): a single
`futures_create_order` call; `BinanceAPIException` yields
`"Binance API Error: " ++ message`, any other exception yields
`"Unexpected error: " ++ text`.  `resp k` is the venue's reply to the
k-th call the function would make; the code makes exactly one. -/
def service_copy_trade (resp : Nat → OrderResult) : CopyOutcome :=
  match resp 0 with
  | OrderResult.filled oid =>
    { success := true, order_id := some oid, error := none, attempts := 1 }
  | OrderResult.venueRejected m =>
    { success := false, order_id := none,
      error := some ("Binance API Error: " ++ m), attempts := 1 }
  | OrderResult.transportErr m =>
    { success := false, order_id := none,
      error := some ("Unexpected error: " ++ m), attempts := 1 }

/-- A row of the `trades` table of `data/trading.db`
(`DatabaseManager.save_trade`). -/
structure TradeRow where
  source_account : String
  target_account : String
  symbol : String
  side : String
  quantity : ℚ
  price : ℚ
  order_id : Option Nat
  status : String
  error_message : Option String
  source_order_id : Nat
deriving DecidableEq

/-- The `trade_info` dictionary built by
`BinanceWebSocketManager.handle_order_update` from a FILLED
ORDER_TRADE_UPDATE message. -/
structure TradeInfo where
  symbol : String
  side : String
  quantity : ℚ
  price : ℚ
  order_id : Nat
  timestamp : Nat
deriving DecidableEq

/-- State of the stream path: `TradeCopyService.processed_orders`
(in-memory set, modelled as a list) and the `trades` table of
`data/trading.db`. -/
structure StreamState where
  processed_orders : List Nat
  trades_table : List TradeRow
deriving DecidableEq

/-- `TradeCopyService.handle_new_trade`: skip the event if its order id
is in `processed_orders`; otherwise add the id to the set, call
`copy_trade` and save a `trades` row with status `success`/`failed`.
Also returns the list of order calls issued (tagged by order id). -/
def handle_new_trade (resp : Nat → OrderResult) (st : StreamState) (ti : TradeInfo) :
    StreamState × List Nat :=
  if st.processed_orders.contains ti.order_id then (st, [])
  else
    let r := service_copy_trade resp
    let row : TradeRow :=
      { source_account := "real", target_account := "testnet",
        symbol := ti.symbol, side := ti.side, quantity := ti.quantity,
        price := ti.price, order_id := r.order_id,
        status := if r.success then "success" else "failed",
        error_message := r.error, source_order_id := ti.order_id }
    (⟨st.processed_orders ++ [ti.order_id], st.trades_table ++ [row]⟩, [ti.order_id])

/-- A sequence of stream deliveries processed by `handle_new_trade`,
accumulating the order calls issued. -/
def run_stream (resp : TradeInfo → Nat → OrderResult) (st : StreamState) (calls : List Nat) :
    List TradeInfo → StreamState × List Nat
  | [] => (st, calls)
  | ti :: tis =>
    let step := handle_new_trade (resp ti) st ti
    run_stream resp step.1 (calls ++ step.2) tis

/-- State of `BinanceWebSocketManager` relevant to reconnection:
`running` and `reconnect_attempts`. -/
structure WSState where
  running : Bool
  reconnect_attempts : Nat
deriving DecidableEq

/-- `BinanceWebSocketManager.max_reconnect_attempts`. -/
def max_reconnect_attempts : Nat := 10

/-- `BinanceWebSocketManager.on_close`: if running and under the attempt
cap, increment `reconnect_attempts`, `time.sleep(5)` and reconnect.
Returns the new state and the list of delays slept (empty when giving
up). -/
def on_close (st : WSState) : WSState × List Nat :=
  if st.running = true ∧ st.reconnect_attempts < max_reconnect_attempts then
    ({ st with reconnect_attempts := st.reconnect_attempts + 1 }, [5])
  else (st, [])

/-- `BinanceWebSocketManager.on_open`: reset `reconnect_attempts` to 0
immediately on a successful open. -/
def on_open (st : WSState) : WSState :=
  { st with reconnect_attempts := 0 }

/-- The connection-level events the reconnect logic reacts to. -/
inductive WSEvent where
  | closed
  | opened
deriving DecidableEq

/-- Run a sequence of connection events through `on_close` / `on_open`,
collecting every reconnect delay slept. -/
def run_ws (st : WSState) : List WSEvent → WSState × List Nat
  | [] => (st, [])
  | WSEvent.closed :: es =>
    let step := on_close st
    let rest := run_ws step.1 es
    (rest.1, step.2 ++ rest.2)
  | WSEvent.opened :: es => run_ws (on_open st) es

/-- A row of the `positions` table of `data/trading.db`
(`UNIQUE(account_type, symbol)`). -/
structure PositionRow where
  account_type : String
  symbol : String
  side : String
  size : ℚ
  entry_price : ℚ
  mark_price : ℚ
  pnl : ℚ
  percentage : ℚ
deriving DecidableEq

/-- A position item of the `futures_position_information` API reply. -/
structure RawPosition where
  symbol : String
  positionAmt : ℚ
  entryPrice : ℚ
  markPrice : ℚ
  unRealizedProfit : ℚ
  percentage : ℚ
deriving DecidableEq

/-- The `positions` row inserted by `DatabaseManager.update_positions`
for one fresh API position. -/
def row_of_position (acc : String) (p : RawPosition) : PositionRow :=
  { account_type := acc, symbol := p.symbol,
    side := if 0 < p.positionAmt then "LONG" else "SHORT",
    size := ratAbs p.positionAmt,
    entry_price := p.entryPrice, mark_price := p.markPrice,
    pnl := p.unRealizedProfit, percentage := p.percentage }

/-- SQLite `INSERT OR REPLACE` on the `UNIQUE(account_type, symbol)`
constraint: drop any conflicting row, then insert the new one. -/
def insert_or_replace (tbl : List PositionRow) (r : PositionRow) : List PositionRow :=
  tbl.filter (fun q => !(q.account_type == r.account_type && q.symbol == r.symbol)) ++ [r]

/-- `DatabaseManager.update_positions`: `DELETE FROM positions WHERE
account_type = ?`, then for each fresh position with nonzero
`positionAmt` insert-or-replace its row. -/
def update_positions (tbl : List PositionRow) (acc : String) (ps : List RawPosition) :
    List PositionRow :=
  let cleared := tbl.filter (fun q => q.account_type != acc)
  ps.foldl
    (fun d p => if p.positionAmt ≠ 0 then insert_or_replace d (row_of_position acc p) else d)
    cleared

/-- A fill on the source account, as seen by the polling path (the venue
trade record, trade id 100). -/
def ex_fill_trade : Trade :=
  { id := 100, symbol := "BTCUSDT", side := "BUY", qty := 1, price := 60000, time := 1000 }

/-- The same fill as delivered on the user-data stream (order id 500). -/
def ex_fill_info : TradeInfo :=
  { symbol := "BTCUSDT", side := "BUY", quantity := 1, price := 60000,
    order_id := 500, timestamp := 1000 }

/-- A venue that fills every order. -/
def all_fill : Nat → OrderResult := fun _ => OrderResult.filled 1

/-- A venue whose first reply is a transport failure and whose second
reply would be a fill. -/
def c4_resp : Nat → OrderResult := fun n =>
  if n = 0 then OrderResult.transportErr "Read timed out" else OrderResult.filled 7

/-- A venue that rejects every order with a business error. -/
def reject_resp : Nat → OrderResult := fun _ => OrderResult.venueRejected "insufficient margin"

/-- A `processed_trades` row of a previously failed replication:
present, `copied = FALSE`. -/
def failed_row : ProcessedRow :=
  { trade_id := 9, symbol := "BTCUSDT", side := "BUY", quantity := 1,
    price := 60000, timestamp := 500, copied := false }

/-- A trades database holding only `failed_row`. -/
def db_failed : TradeDB := { processed := [failed_row], settings := [] }

/-- A re-delivery of the trade behind `failed_row`. -/
def redelivery : Trade :=
  { id := 9, symbol := "BTCUSDT", side := "BUY", qty := 1, price := 60000, time := 500 }

theorem save_trade_settings (ok : Bool) (db : TradeDB) (t : Trade) :
    (save_trade ok db t).1.settings = db.settings := by
  unfold save_trade
  split
  · rfl
  · split <;> rfl

theorem save_trade_processed_mono (ok : Bool) (db : TradeDB) (t : Trade) (i : Nat)
    (h : is_trade_processed db i = true) :
    is_trade_processed (save_trade ok db t).1 i = true := by
  unfold save_trade
  split
  · exact h
  · split
    · exact h
    · simp only [is_trade_processed] at h ⊢
      simp [List.any_append, h]

theorem save_trade_processed_self (db : TradeDB) (t : Trade) :
    is_trade_processed (save_trade true db t).1 t.id = true := by
  by_cases h : is_trade_processed db t.id = true
  · simp [save_trade, h]
  · simp only [Bool.not_eq_true] at h
    simp only [save_trade, Bool.true_eq_false, if_false, h, Bool.false_eq_true]
    simp [is_trade_processed, row_of_trade, List.any_append]

theorem mark_trade_copied_settings (db : TradeDB) (i : Nat) :
    (mark_trade_copied db i).settings = db.settings := rfl

theorem mark_trade_copied_processed (db : TradeDB) (j i : Nat) :
    is_trade_processed (mark_trade_copied db j) i = is_trade_processed db i := by
  unfold is_trade_processed mark_trade_copied
  induction db.processed with
  | nil => rfl
  | cons r rs ih =>
    simp only [List.map_cons, List.any_cons, ih]
    by_cases h : (r.trade_id == j) = true <;> simp [h]

theorem filter_new_trades_settings (saveOk : Nat → Bool) (ts : List Trade) (db : TradeDB) :
    (filter_new_trades saveOk db ts).1.settings = db.settings := by
  induction ts generalizing db with
  | nil => rfl
  | cons t ts ih =>
    unfold filter_new_trades
    by_cases h : is_trade_processed db t.id = true
    · simp only [h, if_true]
      exact ih db
    · simp only [Bool.not_eq_true] at h
      simp only [h, Bool.false_eq_true, if_false]
      rw [ih, save_trade_settings]

theorem filter_new_trades_processed_mono (saveOk : Nat → Bool) (ts : List Trade)
    (db : TradeDB) (i : Nat) (h : is_trade_processed db i = true) :
    is_trade_processed (filter_new_trades saveOk db ts).1 i = true := by
  induction ts generalizing db with
  | nil => exact h
  | cons t ts ih =>
    unfold filter_new_trades
    by_cases hp : is_trade_processed db t.id = true
    · simp only [hp, if_true]
      exact ih db h
    · simp only [Bool.not_eq_true] at hp
      simp only [hp, Bool.false_eq_true, if_false]
      exact ih _ (save_trade_processed_mono _ db t i h)

theorem filter_new_trades_skip (saveOk : Nat → Bool) (ts : List Trade)
    (db : TradeDB) (i : Nat) (h : is_trade_processed db i = true) :
    ((filter_new_trades saveOk db ts).2.countP (fun t => t.id == i)) = 0 := by
  induction ts generalizing db with
  | nil => rfl
  | cons t ts ih =>
    unfold filter_new_trades
    by_cases hp : is_trade_processed db t.id = true
    · simp only [hp, if_true]
      exact ih db h
    · simp only [Bool.not_eq_true] at hp
      simp only [hp, Bool.false_eq_true, if_false]
      have hne : (t.id == i) = false := by
        by_contra hc
        simp only [Bool.not_eq_false, beq_iff_eq] at hc
        rw [hc] at hp
        rw [hp] at h
        exact Bool.false_ne_true h
      simp only [List.countP_cons, hne, if_false, Nat.add_zero]
      exact ih _ (save_trade_processed_mono _ db t i h)

theorem filter_new_trades_at_most_one (ts : List Trade) (db : TradeDB) (i : Nat) :
    ((filter_new_trades (fun _ => true) db ts).2.countP (fun t => t.id == i) ≤ 1)
    ∧ (1 ≤ (filter_new_trades (fun _ => true) db ts).2.countP (fun t => t.id == i) →
        is_trade_processed (filter_new_trades (fun _ => true) db ts).1 i = true) := by
  induction ts generalizing db with
  | nil =>
    refine ⟨by simp [filter_new_trades], fun h => ?_⟩
    simp [filter_new_trades] at h
  | cons t ts ih =>
    unfold filter_new_trades
    by_cases hp : is_trade_processed db t.id = true
    · simp only [hp, if_true]
      exact ih db
    · simp only [Bool.not_eq_true] at hp
      simp only [hp, Bool.false_eq_true, if_false]
      have hdb1 : is_trade_processed (save_trade true db t).1 t.id = true :=
        save_trade_processed_self db t
      by_cases hi : (t.id == i) = true
      · have heq : t.id = i := beq_iff_eq.mp hi
        have hproc : is_trade_processed (save_trade true db t).1 i = true := by
          rw [← heq]; exact hdb1
        have hrest := filter_new_trades_skip (fun _ => true) ts (save_trade true db t).1 i hproc
        constructor
        · simp only [List.countP_cons, hi, if_true, hrest]
          omega
        · intro _
          exact filter_new_trades_processed_mono (fun _ => true) ts _ i hproc
      · simp only [Bool.not_eq_true] at hi
        constructor
        · simp only [List.countP_cons, hi, Bool.false_eq_true, if_false, Nat.add_zero]
          exact (ih _).1
        · intro h1
          simp only [List.countP_cons, hi, Bool.false_eq_true, if_false, Nat.add_zero] at h1
          exact (ih _).2 h1

theorem copier_copy_trade_processed (resp : Nat → OrderResult) (db : TradeDB) (t : Trade)
    (i : Nat) :
    is_trade_processed (copier_copy_trade resp db t).1 i = is_trade_processed db i := by
  cases hr : resp t.id <;> simp [copier_copy_trade, hr, mark_trade_copied_processed]

theorem copier_copy_trade_settings (resp : Nat → OrderResult) (db : TradeDB) (t : Trade) :
    (copier_copy_trade resp db t).1.settings = db.settings := by
  cases hr : resp t.id <;> simp [copier_copy_trade, hr, mark_trade_copied_settings]

theorem copier_copy_trade_calls (resp : Nat → OrderResult) (db : TradeDB) (t : Trade) :
    (copier_copy_trade resp db t).2.1 = [t.id] := by
  cases hr : resp t.id <;> simp [copier_copy_trade, hr]

theorem copier_copy_trades_calls (resp : Nat → OrderResult) (ts : List Trade) :
    ∀ (db : TradeDB) (calls : List Nat),
      (copier_copy_trades resp db calls ts).2 = calls ++ ts.map (fun t => t.id) := by
  induction ts with
  | nil => intro db calls; simp [copier_copy_trades]
  | cons t ts ih =>
    intro db calls
    unfold copier_copy_trades
    rw [ih, copier_copy_trade_calls]
    simp

theorem copier_copy_trades_processed (resp : Nat → OrderResult) (ts : List Trade)
    (i : Nat) :
    ∀ (db : TradeDB) (calls : List Nat),
      is_trade_processed (copier_copy_trades resp db calls ts).1 i = is_trade_processed db i := by
  induction ts with
  | nil => intro db calls; rfl
  | cons t ts ih =>
    intro db calls
    unfold copier_copy_trades
    rw [ih, copier_copy_trade_processed]

theorem copier_copy_trades_settings (resp : Nat → OrderResult) (ts : List Trade) :
    ∀ (db : TradeDB) (calls : List Nat),
      (copier_copy_trades resp db calls ts).1.settings = db.settings := by
  induction ts with
  | nil => intro db calls; rfl
  | cons t ts ih =>
    intro db calls
    unfold copier_copy_trades
    rw [ih, copier_copy_trade_settings]

theorem poll_cycle_settings (resp : Nat → OrderResult) (saveOk : Nat → Bool)
    (h : List Trade) (startT : Nat) (db : TradeDB) (calls : List Nat) :
    (poll_cycle resp saveOk h startT db calls).1.settings = db.settings := by
  unfold poll_cycle get_new_trades
  simp only [if_true]
  rw [copier_copy_trades_settings, filter_new_trades_settings]

theorem run_cycles_settings (resp : Nat → OrderResult) (saveOk : Nat → Bool)
    (startT : Nat) (hists : List (List Trade)) :
    ∀ (db : TradeDB) (calls : List Nat),
      (run_cycles resp saveOk startT db calls hists).1.settings = db.settings := by
  induction hists with
  | nil => intro db calls; rfl
  | cons h hs ih =>
    intro db calls
    unfold run_cycles
    rw [ih, poll_cycle_settings]

theorem poll_cycle_inv (resp : Nat → OrderResult) (h : List Trade) (startT : Nat)
    (db : TradeDB) (calls : List Nat) (i : Nat)
    (h1 : calls.countP (fun c => c == i) ≤ 1)
    (h2 : 1 ≤ calls.countP (fun c => c == i) → is_trade_processed db i = true) :
    (poll_cycle resp (fun _ => true) h startT db calls).2.countP (fun c => c == i) ≤ 1
    ∧ (1 ≤ (poll_cycle resp (fun _ => true) h startT db calls).2.countP (fun c => c == i) →
        is_trade_processed (poll_cycle resp (fun _ => true) h startT db calls).1 i = true) := by
  unfold poll_cycle get_new_trades
  simp only [if_true]
  rw [copier_copy_trades_calls]
  have hmap :
      (((filter_new_trades (fun _ => true) db (get_account_trades h startT)).2.map
          (fun t => t.id)).countP (fun c => c == i))
        = ((filter_new_trades (fun _ => true) db (get_account_trades h startT)).2.countP
            (fun t => t.id == i)) := by
    rw [List.countP_map]
    rfl
  rw [List.countP_append, hmap]
  rw [copier_copy_trades_processed]
  by_cases hc : 1 ≤ calls.countP (fun c => c == i)
  · have hproc := h2 hc
    have hskip := filter_new_trades_skip (fun _ => true) (get_account_trades h startT) db i hproc
    constructor
    · omega
    · intro _
      exact filter_new_trades_processed_mono (fun _ => true) _ db i hproc
  · have hzero : calls.countP (fun c => c == i) = 0 := by omega
    have hf := filter_new_trades_at_most_one (get_account_trades h startT) db i
    constructor
    · omega
    · intro hone
      rw [hzero, Nat.zero_add] at hone
      exact hf.2 hone

theorem run_cycles_inv (resp : Nat → OrderResult) (startT : Nat) (i : Nat)
    (hists : List (List Trade)) :
    ∀ (db : TradeDB) (calls : List Nat),
      calls.countP (fun c => c == i) ≤ 1 →
      (1 ≤ calls.countP (fun c => c == i) → is_trade_processed db i = true) →
      (run_cycles resp (fun _ => true) startT db calls hists).2.countP (fun c => c == i) ≤ 1 := by
  induction hists with
  | nil => intro db calls h1 _; exact h1
  | cons h hs ih =>
    intro db calls h1 h2
    unfold run_cycles
    have hstep := poll_cycle_inv resp h startT db calls i h1 h2
    exact ih _ _ hstep.1 hstep.2

theorem handle_new_trade_inv (resp : Nat → OrderResult) (st : StreamState) (ti : TradeInfo)
    (oid : Nat) (calls : List Nat)
    (h1 : calls.countP (fun c => c == oid) ≤ 1)
    (h2 : 1 ≤ calls.countP (fun c => c == oid) → st.processed_orders.contains oid = true) :
    (calls ++ (handle_new_trade resp st ti).2).countP (fun c => c == oid) ≤ 1
    ∧ (1 ≤ (calls ++ (handle_new_trade resp st ti).2).countP (fun c => c == oid) →
        (handle_new_trade resp st ti).1.processed_orders.contains oid = true) := by
  unfold handle_new_trade
  by_cases hc : st.processed_orders.contains ti.order_id = true
  · simp only [hc, if_true, List.append_nil]
    exact ⟨h1, h2⟩
  · simp only [Bool.not_eq_true] at hc
    simp only [hc, Bool.false_eq_true, if_false]
    simp only [List.countP_append]
    by_cases hoid : (ti.order_id == oid) = true
    · have heq : ti.order_id = oid := beq_iff_eq.mp hoid
      have hz : calls.countP (fun c => c == oid) = 0 := by
        by_contra hnz
        have : 1 ≤ calls.countP (fun c => c == oid) := by omega
        have := h2 this
        rw [heq] at hc
        rw [hc] at this
        exact Bool.false_ne_true this
      constructor
      · simp only [hz, List.countP_cons, List.countP_nil, hoid, if_true]
        omega
      · intro _
        simp [heq]
    · simp only [Bool.not_eq_true] at hoid
      simp only [List.countP_cons, List.countP_nil, hoid, Bool.false_eq_true, if_false,
        Nat.add_zero, Nat.zero_add]
      constructor
      · exact h1
      · intro hone
        have hmem : oid ∈ st.processed_orders := by
          have := h2 hone
          simpa using this
        simp [hmem]

theorem run_stream_inv (resp : TradeInfo → Nat → OrderResult) (oid : Nat)
    (tis : List TradeInfo) :
    ∀ (st : StreamState) (calls : List Nat),
      calls.countP (fun c => c == oid) ≤ 1 →
      (1 ≤ calls.countP (fun c => c == oid) → st.processed_orders.contains oid = true) →
      (run_stream resp st calls tis).2.countP (fun c => c == oid) ≤ 1 := by
  induction tis with
  | nil => intro st calls h1 _; exact h1
  | cons ti tis ih =>
    intro st calls h1 h2
    unfold run_stream
    have hstep := handle_new_trade_inv (resp ti) st ti oid calls h1 h2
    exact ih _ _ hstep.1 hstep.2

theorem run_ws_delays (es : List WSEvent) :
    ∀ st : WSState, ((run_ws st es).2.all (fun d => d == 5)) = true := by
  induction es with
  | nil => intro st; rfl
  | cons e es ih =>
    intro st
    cases e with
    | closed =>
      simp only [run_ws, List.all_append]
      rw [ih]
      unfold on_close
      by_cases h : st.running = true ∧ st.reconnect_attempts < max_reconnect_attempts
      · rw [if_pos h]; rfl
      · rw [if_neg h]; rfl
    | opened =>
      simp only [run_ws]
      exact ih _

theorem run_ws_state_append (es es2 : List WSEvent) :
    ∀ st : WSState, (run_ws st (es ++ es2)).1 = (run_ws (run_ws st es).1 es2).1 := by
  induction es with
  | nil => intro st; rfl
  | cons e es ih =>
    intro st
    cases e with
    | closed =>
      simp only [List.cons_append, run_ws]
      exact ih _
    | opened =>
      simp only [List.cons_append, run_ws]
      exact ih _

theorem run_ws_cap (es : List WSEvent) :
    ∀ st : WSState, st.reconnect_attempts ≤ max_reconnect_attempts →
      (run_ws st es).1.reconnect_attempts ≤ max_reconnect_attempts := by
  induction es with
  | nil => intro st h; exact h
  | cons e es ih =>
    intro st h
    cases e with
    | closed =>
      simp only [run_ws]
      apply ih
      unfold on_close
      by_cases hc : st.running = true ∧ st.reconnect_attempts < max_reconnect_attempts
      · rw [if_pos hc]
        exact hc.2
      · rw [if_neg hc]
        exact h
    | opened =>
      simp only [run_ws]
      apply ih
      exact Nat.zero_le _

theorem ratAbs_ne_zero (q : ℚ) (h : q ≠ 0) : ratAbs q ≠ 0 := by
  unfold ratAbs
  split
  · exact neg_ne_zero.mpr h
  · exact h

theorem find?_key_filtered (k : String) (l : List (String × String)) :
    (l.filter (fun kv => kv.1 != k)).find? (fun kv => kv.1 == k) = none := by
  rw [List.find?_eq_none]
  intro kv hkv
  rw [List.mem_filter] at hkv
  have hne : kv.1 ≠ k := by
    have := hkv.2
    simpa using this
  simp [hne]

theorem get_setting_set_same (db : TradeDB) (k v : String) :
    get_setting (set_setting db k v) k = some v := by
  unfold get_setting set_setting
  simp only [List.find?_append, find?_key_filtered, Option.none_or]
  simp [List.find?_cons]

theorem mem_insert_or_replace_elim (tbl : List PositionRow) (r x : PositionRow)
    (h : x ∈ insert_or_replace tbl r) : x ∈ tbl ∨ x = r := by
  unfold insert_or_replace at h
  rw [List.mem_append] at h
  cases h with
  | inl h => exact Or.inl (List.mem_filter.mp h).1
  | inr h => exact Or.inr (List.mem_singleton.mp h)

theorem update_fold_sound (acc : String) (ps : List RawPosition) :
    ∀ (d : List PositionRow) (r : PositionRow),
      r ∈ ps.foldl
          (fun d p =>
            if p.positionAmt ≠ 0 then insert_or_replace d (row_of_position acc p) else d)
          d →
      r ∈ d ∨ ∃ p, p ∈ ps ∧ p.positionAmt ≠ 0 ∧ r = row_of_position acc p := by
  induction ps with
  | nil => intro d r h; exact Or.inl h
  | cons p ps ih =>
    intro d r h
    simp only [List.foldl_cons] at h
    by_cases hz : p.positionAmt ≠ 0
    · rw [if_pos hz] at h
      cases ih _ r h with
      | inl hin =>
        cases mem_insert_or_replace_elim d (row_of_position acc p) r hin with
        | inl hd => exact Or.inl hd
        | inr hr => exact Or.inr ⟨p, List.mem_cons_self p ps, hz, hr⟩
      | inr hex =>
        obtain ⟨q, hq, hqz, hqr⟩ := hex
        exact Or.inr ⟨q, List.mem_cons_of_mem p hq, hqz, hqr⟩
    · rw [if_neg hz] at h
      cases ih _ r h with
      | inl hd => exact Or.inl hd
      | inr hex =>
        obtain ⟨q, hq, hqz, hqr⟩ := hex
        exact Or.inr ⟨q, List.mem_cons_of_mem p hq, hqz, hqr⟩

theorem update_fold_keeps (acc : String) (s : String) (ps : List RawPosition) :
    ∀ d : List PositionRow,
      (∃ r, r ∈ d ∧ r.account_type = acc ∧ r.symbol = s ∧ r.size ≠ 0) →
      ∃ r, r ∈ ps.foldl
            (fun d p =>
              if p.positionAmt ≠ 0 then insert_or_replace d (row_of_position acc p) else d)
            d
        ∧ r.account_type = acc ∧ r.symbol = s ∧ r.size ≠ 0 := by
  induction ps with
  | nil => intro d h; exact h
  | cons p ps ih =>
    intro d h
    obtain ⟨r, hr, hacc, hsym, hsz⟩ := h
    simp only [List.foldl_cons]
    by_cases hz : p.positionAmt ≠ 0
    · rw [if_pos hz]
      apply ih
      by_cases hkill :
          (r.account_type == (row_of_position acc p).account_type
            && r.symbol == (row_of_position acc p).symbol) = true
      · refine ⟨row_of_position acc p, ?_, rfl, ?_, ?_⟩
        · unfold insert_or_replace
          rw [List.mem_append]
          exact Or.inr (List.mem_singleton.mpr rfl)
        · have hs2 : r.symbol = (row_of_position acc p).symbol := by
            have := (Bool.and_eq_true _ _).mp hkill
            exact beq_iff_eq.mp this.2
          rw [← hsym, hs2]
        · exact ratAbs_ne_zero p.positionAmt hz
      · refine ⟨r, ?_, hacc, hsym, hsz⟩
        unfold insert_or_replace
        rw [List.mem_append]
        apply Or.inl
        rw [List.mem_filter]
        refine ⟨hr, ?_⟩
        simp only [Bool.not_eq_true] at hkill
        simp [hkill]
    · rw [if_neg hz]
      exact ih d ⟨r, hr, hacc, hsym, hsz⟩

theorem update_fold_frame (acc : String) (ps : List RawPosition) (r : PositionRow)
    (h : r.account_type ≠ acc) :
    ∀ d : List PositionRow,
      (r ∈ ps.foldl
          (fun d p =>
            if p.positionAmt ≠ 0 then insert_or_replace d (row_of_position acc p) else d)
          d
        ↔ r ∈ d) := by
  induction ps with
  | nil => intro d; exact Iff.rfl
  | cons p ps ih =>
    intro d
    simp only [List.foldl_cons]
    by_cases hz : p.positionAmt ≠ 0
    · rw [if_pos hz, ih]
      unfold insert_or_replace
      rw [List.mem_append]
      constructor
      · intro hm
        cases hm with
        | inl hf => exact (List.mem_filter.mp hf).1
        | inr hs =>
          have : r = row_of_position acc p := List.mem_singleton.mp hs
          exact absurd (by rw [this]; rfl) h
      · intro hd
        apply Or.inl
        rw [List.mem_filter]
        refine ⟨hd, ?_⟩
        have hneq : (r.account_type == (row_of_position acc p).account_type) = false := by
          have : (row_of_position acc p).account_type = acc := rfl
          rw [this]
          exact beq_eq_false_iff_ne.mpr h
        simp [hneq]
    · rw [if_neg hz, ih]

theorem update_fold_complete (acc : String) (ps : List RawPosition) :
    ∀ (d : List PositionRow) (p : RawPosition), p ∈ ps → p.positionAmt ≠ 0 →
      ∃ r, r ∈ ps.foldl
            (fun d p =>
              if p.positionAmt ≠ 0 then insert_or_replace d (row_of_position acc p) else d)
            d
        ∧ r.account_type = acc ∧ r.symbol = p.symbol ∧ r.size ≠ 0 := by
  induction ps with
  | nil =>
    intro d p hp _
    cases hp
  | cons q ps ih =>
    intro d p hp hz
    simp only [List.foldl_cons]
    cases List.mem_cons.mp hp with
    | inl heq =>
      subst heq
      rw [if_pos hz]
      apply update_fold_keeps
      refine ⟨row_of_position acc p, ?_, rfl, rfl, ratAbs_ne_zero _ hz⟩
      unfold insert_or_replace
      rw [List.mem_append]
      exact Or.inr (List.mem_singleton.mpr rfl)
    | inr hmem =>
      by_cases hqz : q.positionAmt ≠ 0
      · rw [if_pos hqz]
        exact ih _ p hmem hz
      · rw [if_neg hqz]
        exact ih _ p hmem hz

/-- Claim C1 (amended): each delivery path deduplicates only against its
own store, so the at-most-once guarantee holds per path.  On the polling
path (`BinanceTradeMonitor.get_new_trades` + `BinanceTradeCopier`,
assuming every admission save succeeds, see C2), any sequence of poll
cycles issues at most one target order per source trade id; on the stream
path (`TradeCopyService.handle_new_trade` with its in-memory
`processed_orders` set), any delivery sequence issues at most one order
per source order id.  The two paths share no store and use different key
spaces, so an event delivered via both paths is replicated once per path
(see the counterexample). -/
theorem c1_per_path_at_most_once (resp : Nat → OrderResult) (startT : Nat) (i : Nat)
    (hists : List (List Trade)) (db : TradeDB)
    (resp2 : TradeInfo → Nat → OrderResult) (oid : Nat) (st : StreamState)
    (tis : List TradeInfo) :
    (run_cycles resp (fun _ => true) startT db [] hists).2.countP (fun c => c == i) ≤ 1
    ∧ (run_stream resp2 st [] tis).2.countP (fun c => c == oid) ≤ 1 := by
  constructor
  · refine run_cycles_inv resp startT i hists db [] (by simp) ?_
    intro h
    simp at h
  · refine run_stream_inv resp2 oid tis st [] (by simp) ?_
    intro h
    simp at h

/-- Claim C1 (counterexample): one fill (trade id 100, order id 500)
delivered once via the stream path and once via the polling path, both
from fresh initial states, causes two target-account order calls — the
claimed system-wide bound of at most one order is violated because the
two paths deduplicate against unrelated stores. -/
theorem c1_counterexample :
    ¬(((handle_new_trade all_fill { processed_orders := [], trades_table := [] }
          ex_fill_info).2.length
        + (poll_cycle all_fill (fun _ => true) [ex_fill_trade] 0
            { processed := [], settings := [] } []).2.length) ≤ 1) := by
  decide

/-- Claim C2 (code bug): `get_new_trades` appends a trade to the
forwarded batch before calling `save_trade` and ignores its boolean
result, so when the store fails to record the admission the event is
still forwarded (and, the record being absent, forwarded again on the
next poll cycle, issuing two orders) — admission fails open, not
closed. -/
theorem c2_save_failure_still_forwarded :
    (get_new_trades true (fun _ => false) [ex_fill_trade] 0
        { processed := [], settings := [] }).2 = [ex_fill_trade]
    ∧ (get_new_trades true (fun _ => false) [ex_fill_trade] 0
        { processed := [], settings := [] }).1.processed = []
    ∧ (run_cycles all_fill (fun _ => false) 0 { processed := [], settings := [] } []
        [[ex_fill_trade], [ex_fill_trade]]).2 = [100, 100] := by
  decide

/-- Claim C3 (counterexample): a poll cycle whose batch contains a trade
with `eventTimeMillis` 5000 leaves the persisted cursor
(`monitor_start_time`) at its prior value "1000" instead of advancing it
to the batch maximum. -/
theorem c3_counterexample :
    get_setting (poll_cycle all_fill (fun _ => true)
        [{ id := 7, symbol := "BTCUSDT", side := "SELL", qty := 2, price := 61000, time := 5000 }]
        1000 { processed := [], settings := [("monitor_start_time", "1000")] } []).1
        "monitor_start_time" = some "1000"
    ∧ ("1000" : String) ≠ "5000" := by
  decide

/-- Claim C3 (amended): the persisted cursor is written once at monitor
startup (`_get_start_time`) and is never modified by any sequence of poll
cycles — `get_new_trades` does not touch the `settings` table at all.  In
particular the cursor trivially never decreases, but it is also never
advanced to the batch maximum as the original claim states. -/
theorem c3_cursor_never_changed (resp : Nat → OrderResult) (saveOk : Nat → Bool)
    (startT : Nat) (db : TradeDB) (calls : List Nat) (hists : List (List Trade))
    (k : String) :
    get_setting (run_cycles resp saveOk startT db calls hists).1 k = get_setting db k := by
  unfold get_setting
  rw [run_cycles_settings]

/-- Claim C4 (counterexample): a transport-level failure on the first
order call leaves the event recorded as failed after exactly one attempt;
no retry happens even though a second call would have succeeded. -/
theorem c4_counterexample :
    (service_copy_trade c4_resp).success = false
    ∧ (service_copy_trade c4_resp).attempts = 1
    ∧ ¬(2 ≤ (service_copy_trade c4_resp).attempts) := by
  decide

/-- Claim C4 (amended): on a transport-level failure both copier
implementations (`TradeCopyService.copy_trade` and
`BinanceTradeCopier.copy_trade`) make exactly one order call and record
the failure immediately, with no retry and no delay. -/
theorem c4_single_attempt (m : String) (resp resp2 : Nat → OrderResult) (db : TradeDB)
    (t : Trade) (h : resp 0 = OrderResult.transportErr m)
    (h2 : resp2 t.id = OrderResult.transportErr m) :
    service_copy_trade resp
      = { success := false, order_id := none,
          error := some ("Unexpected error: " ++ m), attempts := 1 }
    ∧ copier_copy_trade resp2 db t = (db, [t.id], false) := by
  constructor
  · unfold service_copy_trade
    rw [h]
  · unfold copier_copy_trade
    rw [h2]

/-- Witness for C4: the single-attempt behaviour at a concrete timeout. -/
theorem c4_single_attempt_witness :
    service_copy_trade c4_resp
      = { success := false, order_id := none,
          error := some ("Unexpected error: " ++ "Read timed out"), attempts := 1 }
    ∧ copier_copy_trade (fun _ => OrderResult.transportErr "Read timed out")
        { processed := [], settings := [] } ex_fill_trade
      = ({ processed := [], settings := [] }, [ex_fill_trade.id], false) :=
  c4_single_attempt "Read timed out" c4_resp
    (fun _ => OrderResult.transportErr "Read timed out")
    { processed := [], settings := [] } ex_fill_trade rfl rfl

/-- Claim C5 (counterexample): on the venue rejection "insufficient
margin" the stored record's error detail is
"Binance API Error: insufficient margin" — the rejection reason prefixed,
not recorded verbatim as the claim states. -/
theorem c5_counterexample :
    ((handle_new_trade reject_resp { processed_orders := [], trades_table := [] }
        ex_fill_info).1.trades_table.map (fun r => r.error_message))
      = [some ("Binance API Error: insufficient margin")]
    ∧ some ("Binance API Error: insufficient margin") ≠ some "insufficient margin" := by
  decide

/-- Claim C5 (amended): on a venue rejection the event's record is stored
directly with status "failed" and error detail "Binance API Error: "
followed by the rejection reason; exactly one order call is made (no
retry).  The stored row has no attempt-count column; the single attempt
is visible as the single order call. -/
theorem c5_rejection_no_retry (m : String) (st : StreamState) (ti : TradeInfo)
    (h : st.processed_orders.contains ti.order_id = false) :
    (handle_new_trade (fun _ => OrderResult.venueRejected m) st ti).1.trades_table
      = st.trades_table
        ++ [{ source_account := "real", target_account := "testnet", symbol := ti.symbol,
              side := ti.side, quantity := ti.quantity, price := ti.price, order_id := none,
              status := "failed",
              error_message := some ("Binance API Error: " ++ m),
              source_order_id := ti.order_id }]
    ∧ (handle_new_trade (fun _ => OrderResult.venueRejected m) st ti).2 = [ti.order_id] := by
  unfold handle_new_trade
  simp only [h, Bool.false_eq_true, if_false]
  simp [service_copy_trade]

/-- Witness for C5: the rejection behaviour at a concrete event. -/
theorem c5_rejection_no_retry_witness :
    (handle_new_trade (fun _ => OrderResult.venueRejected "insufficient margin")
        { processed_orders := [], trades_table := [] } ex_fill_info).1.trades_table
      = [{ source_account := "real", target_account := "testnet", symbol := "BTCUSDT",
           side := "BUY", quantity := 1, price := 60000, order_id := none,
           status := "failed",
           error_message := some ("Binance API Error: " ++ "insufficient margin"),
           source_order_id := 500 }]
    ∧ (handle_new_trade (fun _ => OrderResult.venueRejected "insufficient margin")
        { processed_orders := [], trades_table := [] } ex_fill_info).2 = [500] :=
  c5_rejection_no_retry "insufficient margin"
    { processed_orders := [], trades_table := [] } ex_fill_info rfl

/-- Claim C6 (confirmed): `is_trade_processed` checks only for the
existence of a `processed_trades` row with the given trade id, ignoring
its `copied` status, so a re-delivered trade whose record exists — in
particular one whose earlier replication failed (`copied = FALSE`) — is
never forwarded to the copier again by `get_new_trades`. -/
theorem c6_already_processed_never_reforwarded (db : TradeDB) (r : ProcessedRow) (i : Nat)
    (hr : r ∈ db.processed) (hid : r.trade_id = i) (fetchOk : Bool) (saveOk : Nat → Bool)
    (hist : List Trade) (startT : Nat) :
    ((get_new_trades fetchOk saveOk hist startT db).2.countP (fun t => t.id == i)) = 0 := by
  have hproc : is_trade_processed db i = true := by
    unfold is_trade_processed
    rw [List.any_eq_true]
    exact ⟨r, hr, by simp [hid]⟩
  unfold get_new_trades
  cases fetchOk with
  | false => rfl
  | true => exact filter_new_trades_skip saveOk _ db i hproc

/-- Witness for C6: a re-delivery of trade 9, whose record is present
with `copied = FALSE` (a failed earlier replication), is not forwarded. -/
theorem c6_witness :
    ((get_new_trades true (fun _ => true) [redelivery] 0 db_failed).2.countP
        (fun t => t.id == 9)) = 0 :=
  c6_already_processed_never_reforwarded db_failed failed_row 9
    (List.mem_singleton.mpr rfl) rfl true (fun _ => true) [redelivery] 0

/-- Claim C7 (counterexample): two consecutive stream faults produce the
delay sequence [5, 5] — the second delay is 5 seconds, not the 10 seconds
the claimed exponential sequence (5s, 10s, 20s, ...) requires. -/
theorem c7_counterexample :
    (run_ws { running := true, reconnect_attempts := 0 }
        [WSEvent.closed, WSEvent.closed]).2 = [5, 5]
    ∧ ([5, 5] : List Nat) ≠ [5, 10] := by
  decide

/-- Claim C7 (amended): every reconnect delay slept by `on_close` is the
constant 5 seconds (hence the sequence is trivially non-decreasing), the
attempt counter never exceeds the cap of 10 (`max_reconnect_attempts`,
not 5), and `on_open` resets the counter to 0 immediately on any
successful connection — there is no minimum stability window. -/
theorem c7_constant_backoff_immediate_reset (es : List WSEvent) (st : WSState) :
    ((run_ws { running := true, reconnect_attempts := 0 } es).2.all (fun d => d == 5)) = true
    ∧ (run_ws st (es ++ [WSEvent.opened])).1.reconnect_attempts = 0
    ∧ (run_ws { running := true, reconnect_attempts := 0 } es).1.reconnect_attempts
        ≤ max_reconnect_attempts := by
  refine ⟨run_ws_delays es _, ?_, run_ws_cap es _ (Nat.zero_le _)⟩
  rw [run_ws_state_append]
  rfl

/-- Claim C8 (confirmed): `update_positions` first deletes every stored
row of the account and then inserts exactly the rows derived from the
fresh positions with nonzero `positionAmt`: every resulting row of the
account comes from a nonzero fresh position, and every nonzero fresh
position leaves a row of the account with its symbol and nonzero size —
zero-size instruments are dropped, never left behind. -/
theorem c8_full_replacement (tbl : List PositionRow) (acc : String) (ps : List RawPosition) :
    (∀ r, r ∈ update_positions tbl acc ps → r.account_type = acc →
       ∃ p, p ∈ ps ∧ p.positionAmt ≠ 0 ∧ r = row_of_position acc p)
    ∧ (∀ p, p ∈ ps → p.positionAmt ≠ 0 →
       ∃ r, r ∈ update_positions tbl acc ps ∧ r.account_type = acc ∧ r.symbol = p.symbol
         ∧ r.size ≠ 0) := by
  constructor
  · intro r hm hacc
    unfold update_positions at hm
    cases update_fold_sound acc ps _ r hm with
    | inl hcl =>
      exfalso
      rw [List.mem_filter] at hcl
      have hb := hcl.2
      simp only [bne_iff_ne, decide_eq_true_eq] at hb
      exact hb hacc
    | inr hex => exact hex
  · intro p hp hz
    unfold update_positions
    exact update_fold_complete acc ps _ p hp hz

/-- Witness for C8: a stale "real" row is replaced by the fresh nonzero
ETHUSDT position and the zero-size BTCUSDT position is dropped. -/
theorem c8_witness :
    (∃ p, p ∈ ([{ symbol := "ETHUSDT", positionAmt := 2, entryPrice := 3000,
                  markPrice := 3100, unRealizedProfit := 5, percentage := 1 },
                { symbol := "BTCUSDT", positionAmt := 0, entryPrice := 0,
                  markPrice := 0, unRealizedProfit := 0, percentage := 0 }] : List RawPosition)
        ∧ p.positionAmt ≠ 0
        ∧ ({ account_type := "real", symbol := "ETHUSDT", side := "LONG", size := 2,
             entry_price := 3000, mark_price := 3100, pnl := 5,
             percentage := 1 } : PositionRow) = row_of_position "real" p)
    ∧ (∃ r, r ∈ update_positions
          [{ account_type := "real", symbol := "ADAUSDT", side := "LONG", size := 3,
             entry_price := 1, mark_price := 1, pnl := 0, percentage := 0 }] "real"
          [{ symbol := "ETHUSDT", positionAmt := 2, entryPrice := 3000,
             markPrice := 3100, unRealizedProfit := 5, percentage := 1 },
           { symbol := "BTCUSDT", positionAmt := 0, entryPrice := 0,
             markPrice := 0, unRealizedProfit := 0, percentage := 0 }]
        ∧ r.account_type = "real" ∧ r.symbol = "ETHUSDT" ∧ r.size ≠ 0) :=
  ⟨(c8_full_replacement
      [{ account_type := "real", symbol := "ADAUSDT", side := "LONG", size := 3,
         entry_price := 1, mark_price := 1, pnl := 0, percentage := 0 }] "real"
      [{ symbol := "ETHUSDT", positionAmt := 2, entryPrice := 3000,
         markPrice := 3100, unRealizedProfit := 5, percentage := 1 },
       { symbol := "BTCUSDT", positionAmt := 0, entryPrice := 0,
         markPrice := 0, unRealizedProfit := 0, percentage := 0 }]).1
    { account_type := "real", symbol := "ETHUSDT", side := "LONG", size := 2,
      entry_price := 3000, mark_price := 3100, pnl := 5, percentage := 1 }
    (by decide) rfl,
   (c8_full_replacement
      [{ account_type := "real", symbol := "ADAUSDT", side := "LONG", size := 3,
         entry_price := 1, mark_price := 1, pnl := 0, percentage := 0 }] "real"
      [{ symbol := "ETHUSDT", positionAmt := 2, entryPrice := 3000,
         markPrice := 3100, unRealizedProfit := 5, percentage := 1 },
       { symbol := "BTCUSDT", positionAmt := 0, entryPrice := 0,
         markPrice := 0, unRealizedProfit := 0, percentage := 0 }]).2
    { symbol := "ETHUSDT", positionAmt := 2, entryPrice := 3000,
      markPrice := 3100, unRealizedProfit := 5, percentage := 1 }
    (by decide) (by decide)⟩

/-- Claim C9 (confirmed): when no `monitor_start_time` setting exists,
`_get_start_time` records the current time as the cursor and returns it,
and a poll starting from that time forwards none of the trades that
occurred strictly before it — no backfill. -/
theorem c9_no_backfill (db : TradeDB) (now : Nat) (hist : List Trade) (saveOk : Nat → Bool)
    (hcur : get_setting db "monitor_start_time" = none)
    (hold : ∀ t, t ∈ hist → t.time < now) :
    get_setting (get_start_time db now).1 "monitor_start_time" = some (toString now)
    ∧ (get_start_time db now).2 = now
    ∧ (get_new_trades true saveOk hist (get_start_time db now).2
        (get_start_time db now).1).2 = [] := by
  have h1 : get_start_time db now
      = (set_setting db "monitor_start_time" (toString now), now) := by
    unfold get_start_time
    rw [hcur]
  have hempty : get_account_trades hist now = [] := by
    unfold get_account_trades
    have hfil : hist.filter (fun t => now ≤ t.time) = [] := by
      rw [List.filter_eq_nil_iff]
      intro t ht
      have := hold t ht
      simp only [decide_eq_true_eq]
      omega
    rw [hfil]
    rfl
  refine ⟨?_, ?_, ?_⟩
  · rw [h1]
    exact get_setting_set_same db _ _
  · rw [h1]
  · rw [h1]
    unfold get_new_trades
    rw [if_pos rfl, hempty]
    rfl

/-- Witness for C9: an empty database, the current time 1700000000000 and
a history holding one old trade (time 5) — the cursor is recorded as the
current time and the forwarded batch is empty. -/
theorem c9_witness :
    get_setting (get_start_time { processed := [], settings := [] } 1700000000000).1
        "monitor_start_time" = some (toString 1700000000000)
    ∧ (get_start_time { processed := [], settings := [] } 1700000000000).2 = 1700000000000
    ∧ (get_new_trades true (fun _ => true)
        [{ id := 1, symbol := "ETHUSDT", side := "SELL", qty := 1, price := 3000, time := 5 }]
        (get_start_time { processed := [], settings := [] } 1700000000000).2
        (get_start_time { processed := [], settings := [] } 1700000000000).1).2 = [] :=
  c9_no_backfill { processed := [], settings := [] } 1700000000000
    [{ id := 1, symbol := "ETHUSDT", side := "SELL", qty := 1, price := 3000, time := 5 }]
    (fun _ => true) rfl (by decide)

/-- Claim C10 (confirmed): `update_positions` deletes only rows with the
given `account_type` and inserts only rows carrying it (the
insert-or-replace conflict is on `(account_type, symbol)`), so every
stored row of any other account type is left exactly as it was. -/
theorem c10_other_accounts_untouched (tbl : List PositionRow) (acc : String)
    (ps : List RawPosition) (r : PositionRow) (h : r.account_type ≠ acc) :
    r ∈ update_positions tbl acc ps ↔ r ∈ tbl := by
  unfold update_positions
  rw [update_fold_frame acc ps r h, List.mem_filter]
  constructor
  · intro hm
    exact hm.1
  · intro hm
    refine ⟨hm, ?_⟩
    simp [h]

/-- Witness for C10: a "testnet" row survives a "real" synchronization
pass untouched. -/
theorem c10_witness :
    (({ account_type := "testnet", symbol := "BTCUSDT", side := "LONG", size := 1,
        entry_price := 2, mark_price := 3, pnl := 0, percentage := 0 } : PositionRow)
        ∈ update_positions
            [{ account_type := "testnet", symbol := "BTCUSDT", side := "LONG", size := 1,
               entry_price := 2, mark_price := 3, pnl := 0, percentage := 0 }] "real"
            [{ symbol := "ETHUSDT", positionAmt := 2, entryPrice := 3000,
               markPrice := 3100, unRealizedProfit := 5, percentage := 1 }]
      ↔ ({ account_type := "testnet", symbol := "BTCUSDT", side := "LONG", size := 1,
           entry_price := 2, mark_price := 3, pnl := 0, percentage := 0 } : PositionRow)
          ∈ [{ account_type := "testnet", symbol := "BTCUSDT", side := "LONG", size := 1,
               entry_price := 2, mark_price := 3, pnl := 0, percentage := 0 }]) :=
  c10_other_accounts_untouched
    [{ account_type := "testnet", symbol := "BTCUSDT", side := "LONG", size := 1,
       entry_price := 2, mark_price := 3, pnl := 0, percentage := 0 }] "real"
    [{ symbol := "ETHUSDT", positionAmt := 2, entryPrice := 3000,
       markPrice := 3100, unRealizedProfit := 5, percentage := 1 }]
    { account_type := "testnet", symbol := "BTCUSDT", side := "LONG", size := 1,
      entry_price := 2, mark_price := 3, pnl := 0, percentage := 0 }
    (by decide)
